import Mathlib

/-!
Shallow embedding of the Solana-Price-Bets program (src/state.rs,
src/error.rs, src/processor.rs) and verification of its specification.

Ledger account identities (`Pubkey`) are modelled as natural numbers;
u64 quantities as `Nat` (with explicit `% 2^64` where the Rust code can
wrap); i64 quantities as `Int` (Rust `/` on i64 truncates toward zero,
modelled by `Int.tdiv`).  Each processor entry point becomes a pure
function from a `World` (the decoded records plus the balances of the
referenced accounts) and the supplied account metadata to
`Except TxError World`; a Rust `panic` (oracle `unwrap`, division by
zero) is the distinguished `TxError.crashed` outcome, and a failure
propagated from an invoked external program (system program / token
program transfer) is `TxError.cpiFailed`.
-/

namespace SolBets

abbrev Pubkey := Nat

/-- The u64 modulus: Rust u64 arithmetic wraps modulo this. -/
def u64Mod : Nat := 2 ^ 64

/-- Rust `as u64` cast of an i64 value (two's-complement reinterpretation). -/
def i64AsU64 (v : Int) : Nat := (v % (2 ^ 64 : Int)).toNat

/-- Bet directions, src/state.rs `Direction`. -/
inductive Direction where
  | Above
  | Below
deriving DecidableEq, Repr

/-- src/state.rs `CancelCondition`. -/
structure CancelCondition where
  below_price : Int
  above_price : Int
  time : Int
deriving DecidableEq, Repr

/-- src/state.rs `Bet`. -/
structure Bet where
  is_initialized : Bool
  betting_market : Pubkey
  creator_main_account : Pubkey
  creator_payment_account : Pubkey
  bet_escrow_account : Pubkey
  odds : Int
  bet_size : Nat
  pyth_oracle_product_account : Pubkey
  pyth_oracle_price_account : Pubkey
  expiration_time : Int
  bet_direction : Direction
  bet_price : Int
  start_price : Int
  cancel_condition : CancelCondition
  variable_odds : Option Int
  total_amount_accepted : Nat
  cancelled : Bool
deriving DecidableEq, Repr

/-- src/state.rs `BettingMarket`. -/
structure BettingMarket where
  owner : Pubkey
  fee_commission_account : Pubkey
  sol_payment : Bool
  payment_mint : Option Pubkey
  pyth_program_id : Pubkey
deriving DecidableEq, Repr

/-- The accepted-bet record as actually used by src/processor.rs
(`process_accept_bet` writes and `process_finalize_bet` reads the
fields `accepted_bet_escrow_account` and `finalized`, which the stale
struct declaration in src/state.rs omits). -/
structure AcceptedBet where
  bet : Pubkey
  accepted_bet_escrow_account : Pubkey
  acceptor_main_account : Pubkey
  acceptor_payment_account : Pubkey
  odds : Int
  bet_size : Nat
  finalized : Bool
deriving DecidableEq, Repr

/-- src/error.rs `BetError`. -/
inductive BetError where
  | InvalidInstruction
  | IncorrectSigner
  | NotRentExempt
  | InvalidMint
  | ExpectedAmountMismatch
  | UnauthorizedAccount
  | IncorrectOwner
  | IsNotTokenAccount
  | AccountAlreadyInitialized
  | InvalidAccounts
  | InvalidBetAccount
  | InvalidSystemProgram
  | AmountOverflow
  | AmountUnderflow
  | DataTypeMismatch
  | InvalidPriceAccount
  | InvalidAccountInput
  | InvalidOracleConfig
  | NoPaymentMintGiven
  | BetNoLongerValid
  | InvalidOdds
  | BetCancelled
  | BetFinalized
  | BeforeExpiryTime
deriving DecidableEq, Repr

/-- A Rust runtime abort inside the processor: the `unwrap()` calls on
the oracle price, or an i64 division by zero. -/
inductive Crash where
  | oracleNone
  | divByZero
deriving DecidableEq, Repr

/-- Outcome classification of one processor invocation. -/
inductive TxError where
  | prog (e : BetError)
  | incorrectProgramId
  | cpiFailed
  | crashed (c : Crash)
deriving DecidableEq, Repr

/-- The fixed identity of the SPL token program (`spl_token::ID`). -/
def splTokenId : Pubkey := 1

/-- The fixed identity of the system program (`system_program::check_id`). -/
def systemProgramId : Pubkey := 2

/-- Modelled from the spec: the pyth account-schema constants (`MAGIC`,
`VERSION_2`, `AccountType::Product`) live in the repository's `pyth`
module, which is not under src/; the spec only requires the product
account's "format tag and version" to match fixed expected values. -/
def pythMagic : Nat := 0xa1b2c3d4

/-- Modelled from the spec: expected pyth schema version, see `pythMagic`. -/
def pythVersion2 : Nat := 2

/-- Modelled from the spec: expected pyth product account type tag. -/
def pythAccountTypeProduct : Nat := 2

/-- The decoded pyth product account fields used by `validate_pyth_keys`. -/
structure PythProduct where
  magic : Nat
  ver : Nat
  atype : Nat
  px_acc : Pubkey
deriving DecidableEq, Repr

/-- src/processor.rs `validate_pyth_keys`. -/
def validate_pyth_keys (oracle_program_id : Pubkey)
    (product_owner price_owner : Pubkey) (product : PythProduct)
    (price_key : Pubkey) : Except TxError Unit :=
  if oracle_program_id ≠ product_owner then .error (.prog .InvalidOracleConfig)
  else if oracle_program_id ≠ price_owner then .error (.prog .InvalidOracleConfig)
  else if product.magic ≠ pythMagic then .error (.prog .InvalidOracleConfig)
  else if product.ver ≠ pythVersion2 then .error (.prog .InvalidOracleConfig)
  else if product.atype ≠ pythAccountTypeProduct then .error (.prog .InvalidOracleConfig)
  else if product.px_acc ≠ price_key then .error (.prog .InvalidOracleConfig)
  else .ok ()

/-- The ledger state seen by one bet: the three decoded records plus the
balances (lamports in SOL mode, token units in token mode) of the
referenced value-bearing accounts. -/
structure World where
  bet : Bet
  market : BettingMarket
  acceptedRecord : AcceptedBet
  bet_escrow_bal : Nat
  accepted_escrow_bal : Nat
  creator_payment_bal : Nat
  acceptor_payment_bal : Nat
  commission_bal : Nat
  finalizer_payment_bal : Nat
deriving DecidableEq, Repr

/-- Account metadata supplied to `process_create_bet`: the keys of the
accounts in instruction order, the signer/owner/rent facts the runtime
exposes about them, the decoded pyth product, the oracle price sample
(`none` models a pyth account with no current aggregate, which the code
`unwrap`s), and the mints of the two decoded token accounts. -/
structure CreateBetAccounts where
  program_id : Pubkey
  creator_main_key : Pubkey
  creator_main_is_signer : Bool
  creator_payment_key : Pubkey
  creator_payment_owner : Pubkey
  creator_payment_mint : Pubkey
  bet_state_key : Pubkey
  bet_state_owner : Pubkey
  bet_state_rent_exempt : Bool
  bet_escrow_key : Pubkey
  bet_escrow_owner : Pubkey
  bet_escrow_mint : Pubkey
  betting_market_key : Pubkey
  pyth_product_key : Pubkey
  pyth_product_owner : Pubkey
  pyth_product_data : PythProduct
  pyth_price_key : Pubkey
  pyth_price_owner : Pubkey
  oracle_price : Option Int
  token_program_key : Pubkey
  system_program_key : Pubkey
deriving DecidableEq, Repr

/-- src/instruction.rs `CreateBetArgs`. -/
structure CreateBetArgs where
  bet_size : Nat
  odds : Int
  expiration_time : Int
  bet_direction : Direction
  bet_price : Int
  cancel_condition : CancelCondition
  variable_odds : Option Int
deriving DecidableEq, Repr

/-- The tail of `process_create_bet` after the payment-mode branch:
pyth validation, the already-initialized check, the oracle sample, the
odds floor, and the record write-back (src/processor.rs lines 239-282).
Note the source never assigns `betting_market` on the new record. -/
def create_bet_tail (w : World) (a : CreateBetAccounts) (g : CreateBetArgs) :
    Except TxError World :=
  match validate_pyth_keys w.market.pyth_program_id a.pyth_product_owner
      a.pyth_price_owner a.pyth_product_data a.pyth_price_key with
  | .error e => .error e
  | .ok () =>
    if w.bet.is_initialized = true then .error (.prog .AccountAlreadyInitialized)
    else
      match a.oracle_price with
      | none => .error (.crashed .oracleNone)
      | some price =>
        if g.odds < 100 then .error (.prog .InvalidOdds)
        else .ok { w with bet :=
          { w.bet with
            is_initialized := true
            creator_main_account := a.creator_main_key
            creator_payment_account := a.creator_payment_key
            bet_escrow_account := a.bet_escrow_key
            odds := g.odds
            bet_size := g.bet_size
            pyth_oracle_product_account := a.pyth_product_key
            pyth_oracle_price_account := a.pyth_price_key
            expiration_time := g.expiration_time
            bet_direction := g.bet_direction
            bet_price := g.bet_price
            start_price := price
            cancel_condition := g.cancel_condition
            variable_odds := g.variable_odds
            total_amount_accepted := 0
            cancelled := false } }

/-- src/processor.rs `process_create_bet` (lines 132-283). -/
def process_create_bet (w : World) (a : CreateBetAccounts) (g : CreateBetArgs) :
    Except TxError World :=
  if a.token_program_key ≠ splTokenId then .error .incorrectProgramId
  else if a.system_program_key ≠ systemProgramId then .error (.prog .InvalidSystemProgram)
  else if a.creator_main_is_signer = false then .error (.prog .IncorrectSigner)
  else if a.bet_state_owner ≠ a.program_id then .error (.prog .IncorrectOwner)
  else if a.bet_state_rent_exempt = false then .error (.prog .NotRentExempt)
  else if w.market.sol_payment = true then
    if a.bet_escrow_owner ≠ a.program_id then .error (.prog .IncorrectOwner)
    else if w.bet_escrow_bal < g.bet_size then .error (.prog .AmountUnderflow)
    else create_bet_tail w a g
  else
    if a.bet_escrow_owner ≠ splTokenId ∨ a.creator_payment_owner ≠ splTokenId then
      .error (.prog .IsNotTokenAccount)
    else if hm : w.market.payment_mint.isSome then
      if a.bet_escrow_mint ≠ a.creator_payment_mint ∨
          a.bet_escrow_mint ≠ w.market.payment_mint.get hm then
        .error (.prog .InvalidMint)
      else if w.bet_escrow_bal < g.bet_size then .error (.prog .AmountUnderflow)
      else create_bet_tail w a g
    else if w.bet_escrow_bal < g.bet_size then .error (.prog .AmountUnderflow)
    else create_bet_tail w a g

/-- The acceptance-time effective odds, src/processor.rs lines 367-384.
Rust i64 division truncates toward zero (`Int.tdiv`); a divisor of zero
aborts the program. -/
def acceptance_odds (bet : Bet) (price : Int) : Except TxError Int :=
  match bet.variable_odds with
  | some variable_odds =>
    if variable_odds = 0 then .error (.crashed .divByZero)
    else
      let price_change := price - bet.start_price
      let odds_change :=
        if bet.bet_price > bet.start_price then 0 - price_change.tdiv variable_odds
        else price_change.tdiv variable_odds
      .ok (bet.odds + odds_change)
  | none => .ok bet.odds

/-- The acceptor's required payment, src/processor.rs line 392:
`bet_size * ((bet_odds - 100) as u64) / 100` in wrapping u64 arithmetic. -/
def requiredPayment (bet_size : Nat) (bet_odds : Int) : Nat :=
  bet_size * i64AsU64 (bet_odds - 100) % u64Mod / 100

/-- Account metadata supplied to `process_accept_bet` (declared before
its fund-movement tail `accept_bet_transfer`). -/
structure AcceptBetAccounts where
  program_id : Pubkey
  acceptor_main_key : Pubkey
  acceptor_main_is_signer : Bool
  acceptor_payment_key : Pubkey
  bet_state_key : Pubkey
  bet_escrow_key : Pubkey
  accepted_bet_state_key : Pubkey
  accepted_bet_state_owner : Pubkey
  accepted_bet_state_rent_exempt : Bool
  accepted_bet_escrow_key : Pubkey
  betting_market_key : Pubkey
  pyth_price_key : Pubkey
  oracle_price : Option Int
  token_program_key : Pubkey
  system_program_key : Pubkey
  now : Int
deriving DecidableEq, Repr

/-- The fund-movement tail of `process_accept_bet` (src/processor.rs
lines 391-508): the acceptor's payment, the escrow debit/credit and the
write-back of the new accepted-bet record.  The SOL branch reproduces
the source's comparison of the accepted-escrow KEY against the program
id (line 398) and its checked escrow arithmetic; fund movements
performed by the invoked system/token program fail (`cpiFailed`) when
the source account balance is insufficient. -/
def accept_bet_transfer (w : World) (a : AcceptBetAccounts) (bet_size : Nat)
    (bet_odds : Int) : Except TxError World :=
  let acceptor_payment_amount := requiredPayment bet_size bet_odds
  let record : AcceptedBet :=
    { bet := a.bet_state_key
      accepted_bet_escrow_account := a.accepted_bet_escrow_key
      acceptor_main_account := a.acceptor_main_key
      acceptor_payment_account := a.acceptor_payment_key
      odds := bet_odds
      bet_size := bet_size
      finalized := false }
  if w.market.sol_payment = true then
    if a.accepted_bet_escrow_key ≠ a.program_id then .error (.prog .IncorrectOwner)
    else if w.bet_escrow_bal < bet_size then .error (.prog .AmountUnderflow)
    else if u64Mod ≤ w.accepted_escrow_bal + bet_size then .error (.prog .AmountOverflow)
    else if w.acceptor_payment_bal < acceptor_payment_amount then .error .cpiFailed
    else .ok { w with
      bet_escrow_bal := w.bet_escrow_bal - bet_size
      accepted_escrow_bal := w.accepted_escrow_bal + bet_size + acceptor_payment_amount
      acceptor_payment_bal := w.acceptor_payment_bal - acceptor_payment_amount
      acceptedRecord := record }
  else
    if w.bet_escrow_bal < bet_size then .error .cpiFailed
    else if w.acceptor_payment_bal < acceptor_payment_amount then .error .cpiFailed
    else .ok { w with
      bet_escrow_bal := w.bet_escrow_bal - bet_size
      accepted_escrow_bal := w.accepted_escrow_bal + bet_size + acceptor_payment_amount
      acceptor_payment_bal := w.acceptor_payment_bal - acceptor_payment_amount
      acceptedRecord := record }

/-- The price-dependent part of `process_accept_bet` (src/processor.rs
lines 355-508): the cancel-condition price band, the two deadlines, the
odds computation and floor, then `accept_bet_transfer`. -/
def accept_bet_priced (w : World) (a : AcceptBetAccounts) (bet_size : Nat)
    (price : Int) : Except TxError World :=
  if price > w.bet.cancel_condition.above_price ∨
      price < w.bet.cancel_condition.below_price then
    .error (.prog .BetNoLongerValid)
  else if a.now > w.bet.cancel_condition.time ∨ a.now > w.bet.expiration_time then
    .error (.prog .BetNoLongerValid)
  else
    match acceptance_odds w.bet price with
    | .error e => .error e
    | .ok bet_odds =>
      if bet_odds < 100 then .error (.prog .InvalidOdds)
      else accept_bet_transfer w a bet_size bet_odds

/-- src/processor.rs `process_accept_bet` (lines 285-509): the guard
sequence in source order, the oracle read, then `accept_bet_priced`. -/
def process_accept_bet (w : World) (a : AcceptBetAccounts) (bet_size : Nat) :
    Except TxError World :=
  if a.token_program_key ≠ splTokenId then .error .incorrectProgramId
  else if a.system_program_key ≠ systemProgramId then .error (.prog .InvalidSystemProgram)
  else if a.acceptor_main_is_signer = false then .error (.prog .IncorrectSigner)
  else if a.accepted_bet_state_owner ≠ a.program_id then .error (.prog .IncorrectOwner)
  else if a.accepted_bet_state_rent_exempt = false then .error (.prog .NotRentExempt)
  else if w.bet.betting_market ≠ a.betting_market_key then .error (.prog .InvalidAccounts)
  else if w.bet.bet_escrow_account ≠ a.bet_escrow_key then .error (.prog .InvalidAccounts)
  else if w.bet.cancelled = true then .error (.prog .BetCancelled)
  else if a.pyth_price_key ≠ w.bet.pyth_oracle_price_account then .error (.prog .InvalidAccounts)
  else
    match a.oracle_price with
    | none => .error (.crashed .oracleNone)
    | some price => accept_bet_priced w a bet_size price

/-- Account metadata supplied to `process_cancel_bet`. -/
structure CancelBetAccounts where
  program_id : Pubkey
  creator_main_key : Pubkey
  creator_main_is_signer : Bool
  creator_payment_key : Pubkey
  bet_state_key : Pubkey
  bet_escrow_key : Pubkey
  betting_market_key : Pubkey
  token_program_key : Pubkey
  system_program_key : Pubkey
deriving DecidableEq, Repr

/-- src/processor.rs `process_cancel_bet` (lines 511-616): returns the
whole remaining escrow balance to the creator payment account and sets
`cancelled`.  No check of the cancelled or initialized flag, and no
reconciliation against accepted fills, is performed. -/
def process_cancel_bet (w : World) (a : CancelBetAccounts) : Except TxError World :=
  if a.token_program_key ≠ splTokenId then .error .incorrectProgramId
  else if a.system_program_key ≠ systemProgramId then .error (.prog .InvalidSystemProgram)
  else if a.creator_main_is_signer = false then .error (.prog .IncorrectSigner)
  else if w.bet.creator_main_account ≠ a.creator_main_key then .error (.prog .InvalidAccounts)
  else if w.bet.betting_market ≠ a.betting_market_key then .error (.prog .InvalidAccounts)
  else if w.bet.bet_escrow_account ≠ a.bet_escrow_key then .error (.prog .InvalidAccounts)
  else .ok { w with
    bet_escrow_bal := 0
    creator_payment_bal := w.creator_payment_bal + w.bet_escrow_bal
    bet := { w.bet with cancelled := true } }

/-- Account metadata supplied to `process_finalize_bet`. -/
structure FinalizeBetAccounts where
  program_id : Pubkey
  finalizer_main_key : Pubkey
  finalizer_main_is_signer : Bool
  finalizer_payment_key : Pubkey
  commission_fee_key : Pubkey
  bet_state_key : Pubkey
  accepted_bet_state_key : Pubkey
  accepted_bet_escrow_key : Pubkey
  creator_payment_key : Pubkey
  acceptor_payment_key : Pubkey
  betting_market_key : Pubkey
  pyth_price_key : Pubkey
  oracle_price : Option Int
  token_program_key : Pubkey
  system_program_key : Pubkey
  now : Int
deriving DecidableEq, Repr

/-- The settlement winner, src/processor.rs lines 697-714: `true` means
the creator's payout destination wins (boundary inclusive on both
directions). -/
def settle_winner_is_creator (bet : Bet) (price : Int) : Bool :=
  match bet.bet_direction with
  | .Above => decide (bet.bet_price ≤ price)
  | .Below => decide (price ≤ bet.bet_price)

/-- The settlement tail of `process_finalize_bet` (src/processor.rs
lines 697-853): winner determination, the commission split, the three
escrow debits in source order (SOL: commission, finalizer, winner;
token: commission, winner, finalizer — each failing with `cpiFailed`
when the remaining escrow balance is insufficient), and the finalized
flag write-back. -/
def finalize_settle (w : World) (price : Int) : Except TxError World :=
  let creator_wins := settle_winner_is_creator w.bet price
  let commission_amount := w.acceptedRecord.bet_size / 50
  let finalizer_amount := commission_amount / 4
  let winner_amount := w.acceptedRecord.bet_size - commission_amount - finalizer_amount
  let record := { w.acceptedRecord with finalized := true }
  if w.market.sol_payment = true then
    if w.accepted_escrow_bal < commission_amount then .error .cpiFailed
    else if w.accepted_escrow_bal - commission_amount < finalizer_amount then .error .cpiFailed
    else if w.accepted_escrow_bal - commission_amount - finalizer_amount < winner_amount then
      .error .cpiFailed
    else .ok { w with
      accepted_escrow_bal :=
        w.accepted_escrow_bal - commission_amount - finalizer_amount - winner_amount
      commission_bal := w.commission_bal + commission_amount
      finalizer_payment_bal := w.finalizer_payment_bal + finalizer_amount
      creator_payment_bal :=
        if creator_wins then w.creator_payment_bal + winner_amount else w.creator_payment_bal
      acceptor_payment_bal :=
        if creator_wins then w.acceptor_payment_bal else w.acceptor_payment_bal + winner_amount
      acceptedRecord := record }
  else
    if w.accepted_escrow_bal < commission_amount then .error .cpiFailed
    else if w.accepted_escrow_bal - commission_amount < winner_amount then .error .cpiFailed
    else if w.accepted_escrow_bal - commission_amount - winner_amount < finalizer_amount then
      .error .cpiFailed
    else .ok { w with
      accepted_escrow_bal :=
        w.accepted_escrow_bal - commission_amount - winner_amount - finalizer_amount
      commission_bal := w.commission_bal + commission_amount
      finalizer_payment_bal := w.finalizer_payment_bal + finalizer_amount
      creator_payment_bal :=
        if creator_wins then w.creator_payment_bal + winner_amount else w.creator_payment_bal
      acceptor_payment_bal :=
        if creator_wins then w.acceptor_payment_bal else w.acceptor_payment_bal + winner_amount
      acceptedRecord := record }

/-- src/processor.rs `process_finalize_bet` (lines 618-854): the guard
sequence in source order, then the oracle read and `finalize_settle`.
Line 681 of the source compares the stored escrow reference against the
accepted-bet STATE account's key (`accepted_bet_state_account_info.key`),
not against the supplied escrow account; this is reproduced verbatim. -/
def process_finalize_bet (w : World) (a : FinalizeBetAccounts) : Except TxError World :=
  if a.token_program_key ≠ splTokenId then .error .incorrectProgramId
  else if a.system_program_key ≠ systemProgramId then .error (.prog .InvalidSystemProgram)
  else if a.finalizer_main_is_signer = false then .error (.prog .IncorrectSigner)
  else if w.acceptedRecord.finalized = true then .error (.prog .BetFinalized)
  else if w.bet.betting_market ≠ a.betting_market_key then .error (.prog .InvalidAccounts)
  else if w.bet.pyth_oracle_price_account ≠ a.pyth_price_key then .error (.prog .InvalidAccounts)
  else if w.market.fee_commission_account ≠ a.commission_fee_key then .error (.prog .InvalidAccounts)
  else if w.bet.creator_payment_account ≠ a.creator_payment_key then .error (.prog .InvalidAccounts)
  else if w.acceptedRecord.acceptor_payment_account ≠ a.acceptor_payment_key then
    .error (.prog .InvalidAccounts)
  else if w.acceptedRecord.accepted_bet_escrow_account ≠ a.accepted_bet_state_key then
    .error (.prog .InvalidAccounts)
  else if a.now < w.bet.expiration_time then .error (.prog .BeforeExpiryTime)
  else
    match a.oracle_price with
    | none => .error (.crashed .oracleNone)
    | some price => finalize_settle w price

/-- The observable effect of one invocation: every failure aborts the
whole transition with no partial state change. -/
def runCreate (w : World) (a : CreateBetAccounts) (g : CreateBetArgs) : World :=
  match process_create_bet w a g with
  | .ok w' => w'
  | .error _ => w

/-- Transactional view of `process_accept_bet`, see `runCreate`. -/
def runAccept (w : World) (a : AcceptBetAccounts) (bet_size : Nat) : World :=
  match process_accept_bet w a bet_size with
  | .ok w' => w'
  | .error _ => w

/-- Transactional view of `process_cancel_bet`, see `runCreate`. -/
def runCancel (w : World) (a : CancelBetAccounts) : World :=
  match process_cancel_bet w a with
  | .ok w' => w'
  | .error _ => w

/-- Transactional view of `process_finalize_bet`, see `runCreate`. -/
def runFinalize (w : World) (a : FinalizeBetAccounts) : World :=
  match process_finalize_bet w a with
  | .ok w' => w'
  | .error _ => w

/-- src/state.rs line 29. -/
def MAX_BET_DATA_LENGTH : Nat := 1 + 32 + 32 + 1 + 32 + 2 + 8 + 32 + 32 + 8 + 1 + 8 + 8 + 8 + 8 + 8

/-- src/state.rs line 63. -/
def MAX_BETTING_MARKET_DATA_LEN : Nat := 32 + 32 + 1 + 32 + 32

/-- src/state.rs line 83. -/
def MAX_ACCEPTED_BET_DATA_LEN : Nat := 32 + 32 + 32 + 8 + 8

/-- Width of a boolean field under the fixed-width encoding rule. -/
def boolSize : Nat := 1

/-- Width of a 64-bit integer field. -/
def int64Size : Nat := 8

/-- Width of an identity (public key) field. -/
def pubkeySize : Nat := 32

/-- Width of an optional field: one presence byte plus the payload. -/
def optionSize (payload : Nat) : Nat := 1 + payload

/-- Width of the one-byte `Direction` tag (borsh enum discriminant). -/
def directionSize : Nat := 1

/-- Width of the nested `CancelCondition` record (three i64 fields). -/
def cancelConditionSize : Nat := int64Size + int64Size + int64Size

/-- Sum of the fixed-width encodings of the fields of `Bet` as declared
in src/state.rs lines 33-51, in declaration order. -/
def betComputedSize : Nat :=
  boolSize + pubkeySize + pubkeySize + pubkeySize + pubkeySize + int64Size + int64Size +
    pubkeySize + pubkeySize + int64Size + directionSize + int64Size + int64Size +
    cancelConditionSize + optionSize int64Size + int64Size + boolSize

/-- Sum of the fixed-width encodings of the fields of `BettingMarket`
as declared in src/state.rs lines 67-73. -/
def bettingMarketComputedSize : Nat :=
  pubkeySize + pubkeySize + boolSize + optionSize pubkeySize + pubkeySize

/-- Sum of the fixed-width encodings of the fields of `AcceptedBet` as
declared in src/state.rs lines 87-93 (the stale five-field struct). -/
def acceptedBetComputedSize : Nat :=
  pubkeySize + pubkeySize + pubkeySize + int64Size + int64Size

/-- Modelled from the spec: the size check of `try_from_slice_checked`
lives in the repository's utils module, which is not under src/; the
spec describes "an explicit total-size assertion at decode time,
rejecting undersized storage before field access", applied to the
declared length constant each call site in src/state.rs passes. -/
def storage_size_ok (storage_len declared_len : Nat) : Bool :=
  decide (declared_len ≤ storage_len)

/-- Concrete cancel condition used by the evaluation states below. -/
def sampleCancelCondition : CancelCondition :=
  { below_price := 50, above_price := 120, time := 900 }

/-- A concrete initialized bet record (keys 11-17, market 15). -/
def sampleBet : Bet :=
  { is_initialized := true
    betting_market := 15
    creator_main_account := 11
    creator_payment_account := 12
    bet_escrow_account := 14
    odds := 150
    bet_size := 1000
    pyth_oracle_product_account := 16
    pyth_oracle_price_account := 17
    expiration_time := 1000
    bet_direction := .Above
    bet_price := 100
    start_price := 90
    cancel_condition := sampleCancelCondition
    variable_odds := none
    total_amount_accepted := 0
    cancelled := false }

/-- A concrete SOL-payment market. -/
def sampleMarket : BettingMarket :=
  { owner := 30
    fee_commission_account := 24
    sol_payment := true
    payment_mint := none
    pyth_program_id := 31 }

/-- A concrete accepted fill of `sampleBet` (record address 22, escrow 23). -/
def sampleAccepted : AcceptedBet :=
  { bet := 13
    accepted_bet_escrow_account := 23
    acceptor_main_account := 20
    acceptor_payment_account := 21
    odds := 150
    bet_size := 1000
    finalized := false }

/-- The concrete base world. -/
def sampleWorld : World :=
  { bet := sampleBet
    market := sampleMarket
    acceptedRecord := sampleAccepted
    bet_escrow_bal := 1000
    accepted_escrow_bal := 1500
    creator_payment_bal := 0
    acceptor_payment_bal := 10000
    commission_bal := 0
    finalizer_payment_bal := 0 }

/-- A pyth product account consistent with `sampleBet`'s price account. -/
def samplePythProduct : PythProduct :=
  { magic := pythMagic, ver := pythVersion2, atype := pythAccountTypeProduct, px_acc := 17 }

/-- Create-bet account metadata that satisfies every precondition. -/
def sampleCreateAccounts : CreateBetAccounts :=
  { program_id := 10
    creator_main_key := 11
    creator_main_is_signer := true
    creator_payment_key := 12
    creator_payment_owner := splTokenId
    creator_payment_mint := 40
    bet_state_key := 13
    bet_state_owner := 10
    bet_state_rent_exempt := true
    bet_escrow_key := 14
    bet_escrow_owner := 10
    bet_escrow_mint := 40
    betting_market_key := 15
    pyth_product_key := 16
    pyth_product_owner := 31
    pyth_product_data := samplePythProduct
    pyth_price_key := 17
    pyth_price_owner := 31
    oracle_price := some 90
    token_program_key := splTokenId
    system_program_key := systemProgramId }

/-- Create-bet arguments that satisfy every precondition. -/
def sampleCreateArgs : CreateBetArgs :=
  { bet_size := 1000
    odds := 150
    expiration_time := 1000
    bet_direction := .Above
    bet_price := 100
    cancel_condition := sampleCancelCondition
    variable_odds := none }

/-- The base world before bet creation (record not yet initialized). -/
def sampleCreateWorld : World :=
  { sampleWorld with bet := { sampleBet with is_initialized := false } }

/-- World produced by the sample bet creation. -/
def sampleCreatedWorld : World :=
  runCreate sampleCreateWorld sampleCreateAccounts sampleCreateArgs

/-- Accept-bet account metadata that satisfies every precondition.  In
SOL mode the source (line 398) insists the supplied accepted-bet escrow
KEY equal the program id, so this sample uses key 10 = program_id. -/
def sampleAcceptAccounts : AcceptBetAccounts :=
  { program_id := 10
    acceptor_main_key := 20
    acceptor_main_is_signer := true
    acceptor_payment_key := 21
    bet_state_key := 13
    bet_escrow_key := 14
    accepted_bet_state_key := 22
    accepted_bet_state_owner := 10
    accepted_bet_state_rent_exempt := true
    accepted_bet_escrow_key := 10
    betting_market_key := 15
    pyth_price_key := 17
    oracle_price := some 95
    token_program_key := splTokenId
    system_program_key := systemProgramId
    now := 800 }

/-- World produced by a successful sample acceptance of 400 units. -/
def sampleAcceptedWorld : World := runAccept sampleWorld sampleAcceptAccounts 400

/-- Cancel-bet account metadata matching `sampleBet`. -/
def sampleCancelAccounts : CancelBetAccounts :=
  { program_id := 10
    creator_main_key := 11
    creator_main_is_signer := true
    creator_payment_key := 12
    bet_state_key := 13
    bet_escrow_key := 14
    betting_market_key := 15
    token_program_key := splTokenId
    system_program_key := systemProgramId }

/-- World after the sample bet is cancelled. -/
def sampleCancelledWorld : World := runCancel sampleWorld sampleCancelAccounts

/-- Finalize-bet account metadata on which the source's escrow check
passes: because line 681 compares the STORED escrow reference (23)
against the supplied accepted-bet state account's key, the state
account key here must be 23, the stored escrow reference. -/
def sampleFinalizeAccounts : FinalizeBetAccounts :=
  { program_id := 10
    finalizer_main_key := 25
    finalizer_main_is_signer := true
    finalizer_payment_key := 26
    commission_fee_key := 24
    bet_state_key := 13
    accepted_bet_state_key := 23
    accepted_bet_escrow_key := 23
    creator_payment_key := 12
    acceptor_payment_key := 21
    betting_market_key := 15
    pyth_price_key := 17
    oracle_price := some 105
    token_program_key := splTokenId
    system_program_key := systemProgramId
    now := 1200 }

/-- World after the sample finalization. -/
def sampleFinalizedWorld : World := runFinalize sampleWorld sampleFinalizeAccounts

/-- Honest finalize metadata: the accepted-bet state account is passed
at its real address (22) and every cross-referenced account matches its
stored reference, including the escrow account (23). -/
def c4HonestAccounts : FinalizeBetAccounts :=
  { sampleFinalizeAccounts with accepted_bet_state_key := 22 }

/-- Finalize metadata supplying a WRONG escrow account (999) while the
state-account key equals the stored escrow reference. -/
def c4WrongEscrowAccounts : FinalizeBetAccounts :=
  { sampleFinalizeAccounts with accepted_bet_escrow_key := 999 }

/-- A variable-odds bet for the acceptance-odds evaluations. -/
def c2Bet : Bet := { sampleBet with odds := 110, variable_odds := some 1 }

/-- World holding `c2Bet`. -/
def c2World : World := { sampleWorld with bet := c2Bet }

/-- Accept metadata with the oracle at 120 (inside the cancel band). -/
def c2AcceptAccounts : AcceptBetAccounts :=
  { sampleAcceptAccounts with oracle_price := some 120 }

/-- Create-bet arguments carrying `variable_odds = Some(0)`. -/
def c10CreateArgs : CreateBetArgs := { sampleCreateArgs with variable_odds := some 0 }

/-- The world reachable by creating a bet with `variable_odds = Some(0)`. -/
def c10CreatedWorld : World := runCreate sampleCreateWorld sampleCreateAccounts c10CreateArgs

/-- The three settlement shares always add back up to the accepted bet
size (the commission and fee are small enough that the truncating
subtractions cannot underflow). -/
theorem commission_split_sum (size : Nat) :
    size / 50 + size / 50 / 4 + (size - size / 50 - size / 50 / 4) = size := by
  omega

/-- Unfolding of the winner decision into the two directional cases. -/
theorem settle_winner_is_creator_iff (bet : Bet) (price : Int) :
    settle_winner_is_creator bet price = true ↔
      ((bet.bet_direction = .Above ∧ bet.bet_price ≤ price) ∨
       (bet.bet_direction = .Below ∧ price ≤ bet.bet_price)) := by
  cases hd : bet.bet_direction <;> simp [settle_winner_is_creator, hd]

set_option maxHeartbeats 1600000 in
/-- Guard decomposition of a successful `process_finalize_bet`: the
oracle had a price, the record was not yet finalized, and the
settlement tail produced the final state. -/
theorem finalize_ok_parts {w : World} {a : FinalizeBetAccounts} {w' : World}
    (h : process_finalize_bet w a = .ok w') :
    ∃ price, a.oracle_price = some price ∧
      w.acceptedRecord.finalized = false ∧
      finalize_settle w price = .ok w' := by
  cases hp : a.oracle_price with
  | none =>
    simp only [process_finalize_bet, hp] at h
    split_ifs at h
    all_goals simp at h
  | some price =>
    simp only [process_finalize_bet, hp] at h
    split_ifs at h with h1 h2 h3 h4 h5 h6 h7 h8 h9 h10 h11
    all_goals try injection h
    exact ⟨price, rfl, by simpa using h4, h⟩

set_option maxHeartbeats 1600000 in
/-- Success shape of the settlement tail: the bet and market are
untouched, the record's only change is `finalized := true`, and the
commission, the finalizer fee and the winner amount land on the
commission account, the finalizer payment account, and the winning
payout account. -/
theorem finalize_settle_ok_fields {w : World} {price : Int} {w' : World}
    (h : finalize_settle w price = .ok w') :
    w'.bet = w.bet ∧
    w'.market = w.market ∧
    w'.acceptedRecord = { w.acceptedRecord with finalized := true } ∧
    w'.commission_bal = w.commission_bal + w.acceptedRecord.bet_size / 50 ∧
    w'.finalizer_payment_bal =
      w.finalizer_payment_bal + w.acceptedRecord.bet_size / 50 / 4 ∧
    w'.creator_payment_bal =
      (if settle_winner_is_creator w.bet price then
        w.creator_payment_bal +
          (w.acceptedRecord.bet_size - w.acceptedRecord.bet_size / 50 -
            w.acceptedRecord.bet_size / 50 / 4)
      else w.creator_payment_bal) ∧
    w'.acceptor_payment_bal =
      (if settle_winner_is_creator w.bet price then w.acceptor_payment_bal
      else w.acceptor_payment_bal +
        (w.acceptedRecord.bet_size - w.acceptedRecord.bet_size / 50 -
          w.acceptedRecord.bet_size / 50 / 4)) := by
  simp only [finalize_settle] at h
  split_ifs at h
  all_goals injection h with h
  all_goals subst h
  all_goals refine ⟨rfl, rfl, rfl, rfl, rfl, ?_, ?_⟩ <;> simp [*]

/-- A finalization can only succeed on a not-yet-finalized record. -/
theorem finalize_not_ok_of_finalized {w : World} {a : FinalizeBetAccounts}
    (hf : w.acceptedRecord.finalized = true) (w' : World) :
    process_finalize_bet w a ≠ .ok w' := by
  intro h
  obtain ⟨price, -, hff, -⟩ := finalize_ok_parts h
  rw [hf] at hff
  exact Bool.true_eq_false.mp hff

/-- On a record whose `finalized` flag is set, `process_finalize_bet`
returns `BetFinalized` as soon as the three checks that precede the
finalized check (token program, system program, signer) pass. -/
theorem finalize_finalized_err (w : World) (a : FinalizeBetAccounts)
    (hf : w.acceptedRecord.finalized = true)
    (htok : a.token_program_key = splTokenId)
    (hsys : a.system_program_key = systemProgramId)
    (hsig : a.finalizer_main_is_signer = true) :
    process_finalize_bet w a = .error (.prog .BetFinalized) := by
  simp [process_finalize_bet, hf, htok, hsys, hsig]

/-- Whatever the supplied accounts, invoking finalize on an
already-finalized record never changes the state. -/
theorem runFinalize_finalized_frame (w : World) (a : FinalizeBetAccounts)
    (hf : w.acceptedRecord.finalized = true) :
    runFinalize w a = w := by
  unfold runFinalize
  cases hres : process_finalize_bet w a with
  | ok w'' => exact absurd hres (finalize_not_ok_of_finalized hf w'')
  | error e => rfl

set_option maxHeartbeats 1600000 in
/-- Guard decomposition of a successful `process_accept_bet`: the
oracle had a price, the bet is not cancelled, and the price-dependent
part produced the final state. -/
theorem accept_ok_guards {w : World} {a : AcceptBetAccounts} {size : Nat} {w' : World}
    (h : process_accept_bet w a size = .ok w') :
    ∃ price, a.oracle_price = some price ∧
      w.bet.cancelled = false ∧
      accept_bet_priced w a size price = .ok w' := by
  cases hp : a.oracle_price with
  | none =>
    simp only [process_accept_bet, hp] at h
    split_ifs at h
    all_goals simp at h
  | some price =>
    simp only [process_accept_bet, hp] at h
    split_ifs at h with h1 h2 h3 h4 h5 h6 h7 h8 h9
    all_goals try injection h
    exact ⟨price, rfl, by simpa using h8, h⟩

set_option maxHeartbeats 1600000 in
/-- Decomposition of a successful `accept_bet_priced`: the acceptance
odds computed without fault and cleared the floor of 100, and the
transfer tail produced the final state. -/
theorem accept_priced_ok_parts {w : World} {a : AcceptBetAccounts}
    {size : Nat} {price : Int} {w' : World}
    (h : accept_bet_priced w a size price = .ok w') :
    ∃ bet_odds,
      acceptance_odds w.bet price = .ok bet_odds ∧
      100 ≤ bet_odds ∧
      accept_bet_transfer w a size bet_odds = .ok w' := by
  cases ho : acceptance_odds w.bet price with
  | error e =>
    simp only [accept_bet_priced, ho] at h
    split_ifs at h
    all_goals simp at h
  | ok bet_odds =>
    simp only [accept_bet_priced, ho] at h
    split_ifs at h with h1 h2 h3
    all_goals try injection h
    exact ⟨bet_odds, rfl, by omega, h⟩

/-- Combined success decomposition of `process_accept_bet`. -/
theorem accept_ok_parts {w : World} {a : AcceptBetAccounts} {size : Nat} {w' : World}
    (h : process_accept_bet w a size = .ok w') :
    ∃ price bet_odds, a.oracle_price = some price ∧
      w.bet.cancelled = false ∧
      acceptance_odds w.bet price = .ok bet_odds ∧
      100 ≤ bet_odds ∧
      accept_bet_transfer w a size bet_odds = .ok w' := by
  obtain ⟨price, hp, hc, hpr⟩ := accept_ok_guards h
  obtain ⟨bet_odds, ho, hfloor, htr⟩ := accept_priced_ok_parts hpr
  exact ⟨price, bet_odds, hp, hc, ho, hfloor, htr⟩

set_option maxHeartbeats 1600000 in
/-- Success shape of the transfer tail of acceptance: the bet and
market records are untouched, the new accepted-bet record is written
with the locked-in odds, `size` moves from the bet escrow into the
accepted-bet escrow, and `requiredPayment size bet_odds` is pulled
from the acceptor's payment account into the same escrow. -/
theorem accept_transfer_ok_fields {w : World} {a : AcceptBetAccounts}
    {size : Nat} {bet_odds : Int} {w' : World}
    (h : accept_bet_transfer w a size bet_odds = .ok w') :
    w'.bet = w.bet ∧
    w'.market = w.market ∧
    w'.acceptedRecord =
      { bet := a.bet_state_key
        accepted_bet_escrow_account := a.accepted_bet_escrow_key
        acceptor_main_account := a.acceptor_main_key
        acceptor_payment_account := a.acceptor_payment_key
        odds := bet_odds
        bet_size := size
        finalized := false } ∧
    requiredPayment size bet_odds ≤ w.acceptor_payment_bal ∧
    w'.acceptor_payment_bal = w.acceptor_payment_bal - requiredPayment size bet_odds ∧
    size ≤ w.bet_escrow_bal ∧
    w'.bet_escrow_bal = w.bet_escrow_bal - size ∧
    w'.accepted_escrow_bal = w.accepted_escrow_bal + size + requiredPayment size bet_odds ∧
    w'.creator_payment_bal = w.creator_payment_bal ∧
    w'.commission_bal = w.commission_bal ∧
    w'.finalizer_payment_bal = w.finalizer_payment_bal := by
  simp only [accept_bet_transfer] at h
  split_ifs at h with h1 h2 h3 h4 h5 h6 h7
  all_goals injection h with h
  all_goals subst h
  all_goals exact ⟨rfl, rfl, rfl, by omega, rfl, by omega, rfl, rfl, rfl, rfl, rfl⟩

/-- The only fault of the odds computation is the division by zero, and
it happens exactly when the stored sensitivity divisor is `Some 0`. -/
theorem acceptance_odds_error {bet : Bet} {price : Int} {e : TxError}
    (h : acceptance_odds bet price = .error e) :
    bet.variable_odds = some 0 ∧ e = .crashed .divByZero := by
  unfold acceptance_odds at h
  cases hv : bet.variable_odds with
  | none => rw [hv] at h; exact absurd h (by simp)
  | some v =>
    rw [hv] at h
    by_cases hz : v = 0
    · subst hz
      simp at h
      exact ⟨rfl, h.symm⟩
    · simp [hz] at h

/-- A cancelled bet can never be accepted, whatever the accounts. -/
theorem accept_cancelled_not_ok {w : World} (hc : w.bet.cancelled = true)
    (a : AcceptBetAccounts) (size : Nat) (w' : World) :
    process_accept_bet w a size ≠ .ok w' := by
  intro h
  obtain ⟨price, bet_odds, -, hcf, -⟩ := accept_ok_parts h
  rw [hc] at hcf
  exact Bool.true_eq_false.mp hcf

/-- On a cancelled bet, `process_accept_bet` returns `BetCancelled` as
soon as the seven checks preceding the cancelled check pass. -/
theorem accept_cancelled_err (w : World) (a : AcceptBetAccounts) (size : Nat)
    (hc : w.bet.cancelled = true)
    (htok : a.token_program_key = splTokenId)
    (hsys : a.system_program_key = systemProgramId)
    (hsig : a.acceptor_main_is_signer = true)
    (hown : a.accepted_bet_state_owner = a.program_id)
    (hrent : a.accepted_bet_state_rent_exempt = true)
    (hmar : w.bet.betting_market = a.betting_market_key)
    (hesc : w.bet.bet_escrow_account = a.bet_escrow_key) :
    process_accept_bet w a size = .error (.prog .BetCancelled) := by
  simp [process_accept_bet, hc, htok, hsys, hsig, hown, hrent, hmar, hesc]

set_option maxHeartbeats 1600000 in
/-- A successful `process_create_bet` went through `create_bet_tail`. -/
theorem create_ok_via_tail {w : World} {a : CreateBetAccounts} {g : CreateBetArgs}
    {w' : World} (h : process_create_bet w a g = .ok w') :
    create_bet_tail w a g = .ok w' := by
  unfold process_create_bet at h
  split_ifs at h
  all_goals first | exact h | injection h

/-- Success shape of `create_bet_tail`: the record could not have been
initialized already, the odds cleared the floor, and the whole new
record is written with the sampled oracle price as `start_price` and a
zero running total (the stored `betting_market` field is whatever was
in the uninitialized account — the source never assigns it). -/
theorem create_tail_ok_fields {w : World} {a : CreateBetAccounts} {g : CreateBetArgs}
    {w' : World} (h : create_bet_tail w a g = .ok w') :
    ∃ price, a.oracle_price = some price ∧
      validate_pyth_keys w.market.pyth_program_id a.pyth_product_owner
        a.pyth_price_owner a.pyth_product_data a.pyth_price_key = .ok () ∧
      w.bet.is_initialized = false ∧
      100 ≤ g.odds ∧
      w' = { w with bet :=
        { w.bet with
          is_initialized := true
          creator_main_account := a.creator_main_key
          creator_payment_account := a.creator_payment_key
          bet_escrow_account := a.bet_escrow_key
          odds := g.odds
          bet_size := g.bet_size
          pyth_oracle_product_account := a.pyth_product_key
          pyth_oracle_price_account := a.pyth_price_key
          expiration_time := g.expiration_time
          bet_direction := g.bet_direction
          bet_price := g.bet_price
          start_price := price
          cancel_condition := g.cancel_condition
          variable_odds := g.variable_odds
          total_amount_accepted := 0
          cancelled := false } } := by
  unfold create_bet_tail at h
  cases hv : validate_pyth_keys w.market.pyth_program_id a.pyth_product_owner
      a.pyth_price_owner a.pyth_product_data a.pyth_price_key with
  | error e => rw [hv] at h; exact absurd h (by simp)
  | ok u =>
    cases u
    rw [hv] at h
    cases hp : a.oracle_price with
    | none =>
      simp only [hp] at h
      split_ifs at h
      all_goals simp at h
    | some price =>
      simp only [hp] at h
      split_ifs at h with h1 h2
      all_goals injection h with h
      exact ⟨price, rfl, rfl, by simpa using h1, by omega, h.symm⟩

/-- An already-initialized bet record can never be re-created. -/
theorem create_not_ok_of_initialized {w : World}
    (hi : w.bet.is_initialized = true) (a : CreateBetAccounts) (g : CreateBetArgs)
    (w' : World) : process_create_bet w a g ≠ .ok w' := by
  intro h
  obtain ⟨price, -, -, hff, -⟩ := create_tail_ok_fields (create_ok_via_tail h)
  rw [hi] at hff
  exact Bool.true_eq_false.mp hff

/-- When the same input with the odds argument replaced by 100 reaches
a successful creation, any odds below 100 make the tail fail with
`InvalidOdds`: no check before the odds floor depends on the odds. -/
theorem create_tail_low_odds {w : World} {a : CreateBetAccounts} {g : CreateBetArgs}
    {w₀ : World} (h : create_bet_tail w a { g with odds := 100 } = .ok w₀)
    {odds₁ : Int} (hlow : odds₁ < 100) :
    create_bet_tail w a { g with odds := odds₁ } = .error (.prog .InvalidOdds) := by
  obtain ⟨price, hp, hv, hinit, -, -⟩ := create_tail_ok_fields h
  simp [create_bet_tail, hv, hp, hinit, hlow]

set_option maxHeartbeats 1600000 in
/-- An error produced by the tail on arguments of the same bet size is
an error of the whole pipeline, provided the pipeline is known to pass
its guards (witnessed by a successful run on the first arguments). -/
theorem create_error_transfer {w : World} {a : CreateBetAccounts}
    {g₁ g₂ : CreateBetArgs} {w₀ : World} {e : TxError}
    (hok : process_create_bet w a g₁ = .ok w₀)
    (htail : create_bet_tail w a g₂ = .error e)
    (hsize : g₁.bet_size = g₂.bet_size) :
    process_create_bet w a g₂ = .error e := by
  unfold process_create_bet at hok ⊢
  rw [← hsize]
  split_ifs at hok ⊢
  all_goals first | exact htail | injection hok

/-- Success shape of `process_cancel_bet`: the whole escrow balance
moves to the creator payment account and the record's only change is
`cancelled := true`. -/
theorem cancel_ok_fields {w : World} {a : CancelBetAccounts} {w' : World}
    (h : process_cancel_bet w a = .ok w') :
    w' = { w with
      bet_escrow_bal := 0
      creator_payment_bal := w.creator_payment_bal + w.bet_escrow_bal
      bet := { w.bet with cancelled := true } } := by
  unfold process_cancel_bet at h
  split_ifs at h
  all_goals injection h with h
  exact h.symm

/-- Every path of the accept pipeline leaves the parent bet record (and
the market) untouched: the pipeline never serializes the bet account. -/
theorem runAccept_bet_frame (w : World) (a : AcceptBetAccounts) (size : Nat) :
    (runAccept w a size).bet = w.bet ∧ (runAccept w a size).market = w.market := by
  unfold runAccept
  cases hres : process_accept_bet w a size with
  | ok w'' =>
    obtain ⟨price, bet_odds, -, -, -, -, htr⟩ := accept_ok_parts hres
    obtain ⟨hbet, hmar, -⟩ := accept_transfer_ok_fields htr
    exact ⟨hbet, hmar⟩
  | error e => exact ⟨rfl, rfl⟩

/-- C1: for every successful FinalizeBet settlement with oracle price
`price`, the winner is the creator's payout destination iff (direction
is Above and `price ≥ bet_price`) or (direction is Below and
`price ≤ bet_price`), boundary inclusive, and the acceptor's payout
destination otherwise; the amounts credited are
`commission = bet_size / 50`, `finalizerFee = commission / 4` and
`winnerAmount = bet_size - commission - finalizerFee` (truncating
division), and the three always sum exactly to `bet_size`. -/
theorem c1_finalize_settlement (w : World) (a : FinalizeBetAccounts) (w' : World)
    (price : Int) (hp : a.oracle_price = some price)
    (h : process_finalize_bet w a = .ok w') :
    w.acceptedRecord.bet_size / 50 + w.acceptedRecord.bet_size / 50 / 4 +
      (w.acceptedRecord.bet_size - w.acceptedRecord.bet_size / 50 -
        w.acceptedRecord.bet_size / 50 / 4) = w.acceptedRecord.bet_size ∧
    w'.commission_bal = w.commission_bal + w.acceptedRecord.bet_size / 50 ∧
    w'.finalizer_payment_bal =
      w.finalizer_payment_bal + w.acceptedRecord.bet_size / 50 / 4 ∧
    (((w.bet.bet_direction = .Above ∧ w.bet.bet_price ≤ price) ∨
      (w.bet.bet_direction = .Below ∧ price ≤ w.bet.bet_price)) →
      w'.creator_payment_bal = w.creator_payment_bal +
        (w.acceptedRecord.bet_size - w.acceptedRecord.bet_size / 50 -
          w.acceptedRecord.bet_size / 50 / 4) ∧
      w'.acceptor_payment_bal = w.acceptor_payment_bal) ∧
    (((w.bet.bet_direction = .Above ∧ price < w.bet.bet_price) ∨
      (w.bet.bet_direction = .Below ∧ w.bet.bet_price < price)) →
      w'.acceptor_payment_bal = w.acceptor_payment_bal +
        (w.acceptedRecord.bet_size - w.acceptedRecord.bet_size / 50 -
          w.acceptedRecord.bet_size / 50 / 4) ∧
      w'.creator_payment_bal = w.creator_payment_bal) := by
  obtain ⟨price0, hp0, -, hsettle⟩ := finalize_ok_parts h
  rw [hp] at hp0
  injection hp0 with hp0
  subst hp0
  obtain ⟨-, -, -, hcom, hfin, hcre, hacc⟩ := finalize_settle_ok_fields hsettle
  refine ⟨commission_split_sum _, hcom, hfin, ?_, ?_⟩
  · intro hwin
    have hcw : settle_winner_is_creator w.bet price = true :=
      (settle_winner_is_creator_iff _ _).mpr hwin
    rw [hcw] at hcre hacc
    simp only [if_true] at hcre hacc
    exact ⟨hcre, hacc⟩
  · intro hlose
    have hcw : settle_winner_is_creator w.bet price = false := by
      rcases hlose with ⟨hd, hlt⟩ | ⟨hd, hlt⟩ <;>
        simp [settle_winner_is_creator, hd] <;> omega
    rw [hcw] at hcre hacc
    simp only [Bool.false_eq_true, if_false] at hcre hacc
    exact ⟨hacc, hcre⟩

/-- Witness for C1: the sample finalization (`bet_size = 1000`, Above,
`bet_price = 100`, settlement price 105) pays 20 to the commission
account, 5 to the finalizer and 975 to the creator, and 20+5+975 =
1000. -/
theorem c1_finalize_settlement_witness :
    sampleWorld.acceptedRecord.bet_size = 1000 ∧
    process_finalize_bet sampleWorld sampleFinalizeAccounts = .ok sampleFinalizedWorld ∧
    (1000 / 50 + 1000 / 50 / 4 + (1000 - 1000 / 50 - 1000 / 50 / 4) : Nat) = 1000 ∧
    sampleFinalizedWorld.commission_bal = sampleWorld.commission_bal + 1000 / 50 ∧
    sampleFinalizedWorld.finalizer_payment_bal =
      sampleWorld.finalizer_payment_bal + 1000 / 50 / 4 ∧
    sampleFinalizedWorld.creator_payment_bal =
      sampleWorld.creator_payment_bal + (1000 - 1000 / 50 - 1000 / 50 / 4) ∧
    sampleFinalizedWorld.acceptor_payment_bal = sampleWorld.acceptor_payment_bal := by
  have hmain := c1_finalize_settlement sampleWorld sampleFinalizeAccounts
    sampleFinalizedWorld 105 rfl rfl
  have hwin := hmain.2.2.2.1 (Or.inl ⟨rfl, by decide⟩)
  exact ⟨rfl, rfl, hmain.1, hmain.2.1, hmain.2.2.1, hwin.1, hwin.2⟩

/-- C2: the acceptance odds locked into the new record equal `bet.odds`
when `variable_odds` is unset; when `variable_odds = Some v`, they
equal `bet.odds + oddsChange` with
`priceChange = currentPrice - start_price`,
`oddsChange = -(priceChange / v)` if `bet_price > start_price` and
`priceChange / v` otherwise (truncated i64 division, `Int.tdiv`); and
when every earlier check passes and the computed odds are below 100,
AcceptBet fails with `InvalidOdds`. -/
theorem c2_acceptance_odds :
    (∀ (w : World) (a : AcceptBetAccounts) (size : Nat) (w' : World),
        w.bet.variable_odds = none →
        process_accept_bet w a size = .ok w' →
        w'.acceptedRecord.odds = w.bet.odds) ∧
    (∀ (w : World) (a : AcceptBetAccounts) (size : Nat) (w' : World) (v price : Int),
        w.bet.variable_odds = some v →
        a.oracle_price = some price →
        process_accept_bet w a size = .ok w' →
        w'.acceptedRecord.odds = w.bet.odds +
          (if w.bet.bet_price > w.bet.start_price then
            -((price - w.bet.start_price).tdiv v)
          else (price - w.bet.start_price).tdiv v)) ∧
    (∀ (w : World) (a : AcceptBetAccounts) (size : Nat) (price bet_odds : Int),
        a.token_program_key = splTokenId →
        a.system_program_key = systemProgramId →
        a.acceptor_main_is_signer = true →
        a.accepted_bet_state_owner = a.program_id →
        a.accepted_bet_state_rent_exempt = true →
        w.bet.betting_market = a.betting_market_key →
        w.bet.bet_escrow_account = a.bet_escrow_key →
        w.bet.cancelled = false →
        a.pyth_price_key = w.bet.pyth_oracle_price_account →
        a.oracle_price = some price →
        price ≤ w.bet.cancel_condition.above_price →
        w.bet.cancel_condition.below_price ≤ price →
        a.now ≤ w.bet.cancel_condition.time →
        a.now ≤ w.bet.expiration_time →
        acceptance_odds w.bet price = .ok bet_odds →
        bet_odds < 100 →
        process_accept_bet w a size = .error (.prog .InvalidOdds)) := by
  refine ⟨?_, ?_, ?_⟩
  · intro w a size w' hv h
    obtain ⟨price, bet_odds, -, -, ho, -, htr⟩ := accept_ok_parts h
    obtain ⟨-, -, hrec, -⟩ := accept_transfer_ok_fields htr
    rw [hrec]
    simp only [acceptance_odds, hv] at ho
    injection ho with ho
    exact ho.symm
  · intro w a size w' v price hv hp h
    obtain ⟨price0, bet_odds, hp0, -, ho, -, htr⟩ := accept_ok_parts h
    rw [hp] at hp0
    injection hp0 with hp0
    subst hp0
    obtain ⟨-, -, hrec, -⟩ := accept_transfer_ok_fields htr
    rw [hrec]
    simp only [acceptance_odds, hv] at ho
    by_cases hz : v = 0
    · rw [if_pos hz] at ho
      exact absurd ho (by simp)
    · rw [if_neg hz] at ho
      injection ho with ho
      rw [← ho]
      by_cases hgt : w.bet.bet_price > w.bet.start_price
      · simp [hgt]
      · simp [hgt]
  · intro w a size price bet_odds htok hsys hsig hown hrent hmar hesc hcanc hpyth hp
      hb1 hb2 ht1 ht2 ho hlow
    have hb : ¬(price > w.bet.cancel_condition.above_price ∨
        price < w.bet.cancel_condition.below_price) := by omega
    have ht : ¬(a.now > w.bet.cancel_condition.time ∨
        a.now > w.bet.expiration_time) := by omega
    simp [process_accept_bet, accept_bet_priced, htok, hsys, hsig, hown, hrent,
      hmar, hesc, hcanc, hpyth, hp, hb, ht, ho, hlow]

/-- Witness for C2: a fixed-odds acceptance locks in `odds = 150`
unchanged, and on the variable-odds bet (`odds = 110`, sensitivity 1,
start price 90) an oracle price of 120 drives the computed odds to 80,
so acceptance is rejected with `InvalidOdds`. -/
theorem c2_acceptance_odds_witness :
    sampleWorld.bet.variable_odds = none ∧
    process_accept_bet sampleWorld sampleAcceptAccounts 400 = .ok sampleAcceptedWorld ∧
    sampleAcceptedWorld.acceptedRecord.odds = sampleWorld.bet.odds ∧
    acceptance_odds c2World.bet 120 = .ok 80 ∧
    process_accept_bet c2World c2AcceptAccounts 400 = .error (.prog .InvalidOdds) := by
  refine ⟨rfl, rfl, c2_acceptance_odds.1 sampleWorld sampleAcceptAccounts 400
    sampleAcceptedWorld rfl rfl, rfl, ?_⟩
  exact c2_acceptance_odds.2.2 c2World c2AcceptAccounts 400 120 80 rfl rfl rfl rfl
    rfl rfl rfl rfl rfl rfl (by decide) (by decide) (by decide) (by decide)
    rfl (by decide)

/-- C3: a FinalizeBet on an already-finalized AcceptedBetRecord fails
with `BetFinalized` (once the token-program, system-program and signer
checks that precede the finalized check pass); a successful FinalizeBet
sets the record's finalized flag, so a second FinalizeBet fails with
`BetFinalized` and — whatever accounts it is given — leaves the whole
state, in particular the accepted-bet escrow balance, unchanged. -/
theorem c3_finalize_only_once :
    (∀ (w : World) (a : FinalizeBetAccounts) (w' : World),
        process_finalize_bet w a = .ok w' →
        w'.acceptedRecord.finalized = true ∧
        (∀ a2 : FinalizeBetAccounts,
          a2.token_program_key = splTokenId →
          a2.system_program_key = systemProgramId →
          a2.finalizer_main_is_signer = true →
          process_finalize_bet w' a2 = .error (.prog .BetFinalized)) ∧
        (∀ a2 : FinalizeBetAccounts, runFinalize w' a2 = w')) ∧
    (∀ (w : World) (a : FinalizeBetAccounts),
        w.acceptedRecord.finalized = true →
        a.token_program_key = splTokenId →
        a.system_program_key = systemProgramId →
        a.finalizer_main_is_signer = true →
        process_finalize_bet w a = .error (.prog .BetFinalized)) := by
  constructor
  · intro w a w' h
    obtain ⟨price, -, -, hsettle⟩ := finalize_ok_parts h
    obtain ⟨-, -, hrec, -⟩ := finalize_settle_ok_fields hsettle
    have hflag : w'.acceptedRecord.finalized = true := by rw [hrec]
    exact ⟨hflag,
      fun a2 h1 h2 h3 => finalize_finalized_err w' a2 hflag h1 h2 h3,
      fun a2 => runFinalize_finalized_frame w' a2 hflag⟩
  · exact fun w a hf h1 h2 h3 => finalize_finalized_err w a hf h1 h2 h3

/-- Witness for C3: finalizing the sample world succeeds and sets the
flag; finalizing again with the same accounts returns `BetFinalized`
and leaves the escrow balance unchanged. -/
theorem c3_finalize_only_once_witness :
    process_finalize_bet sampleWorld sampleFinalizeAccounts = .ok sampleFinalizedWorld ∧
    sampleFinalizedWorld.acceptedRecord.finalized = true ∧
    process_finalize_bet sampleFinalizedWorld sampleFinalizeAccounts =
      .error (.prog .BetFinalized) ∧
    runFinalize sampleFinalizedWorld sampleFinalizeAccounts = sampleFinalizedWorld ∧
    (runFinalize sampleFinalizedWorld sampleFinalizeAccounts).accepted_escrow_bal =
      sampleFinalizedWorld.accepted_escrow_bal := by
  obtain ⟨hflag, hsecond, hframe⟩ :=
    c3_finalize_only_once.1 sampleWorld sampleFinalizeAccounts sampleFinalizedWorld rfl
  exact ⟨rfl, hflag, hsecond sampleFinalizeAccounts rfl rfl rfl,
    hframe sampleFinalizeAccounts, by rw [hframe sampleFinalizeAccounts]⟩

/-- C4 (code bug, src/processor.rs line 681): on an input where every
supplied cross-referenced account equals its stored reference — market,
oracle price account, commission fee account, creator and acceptor
payment accounts, and the escrow account equal to the AcceptedBetRecord's
stored escrow reference — and the clock is past expiry, FinalizeBet
still fails with `InvalidAccounts`, because the source compares the
stored escrow reference against the accepted-bet STATE account's own
key instead of the supplied escrow account; conversely, supplying an
arbitrary wrong escrow account (999) passes all checks and the
finalization succeeds whenever that state-key comparison happens to
hold. -/
theorem c4_finalize_escrow_check_bug :
    c4HonestAccounts.betting_market_key = sampleWorld.bet.betting_market ∧
    c4HonestAccounts.pyth_price_key = sampleWorld.bet.pyth_oracle_price_account ∧
    c4HonestAccounts.commission_fee_key = sampleWorld.market.fee_commission_account ∧
    c4HonestAccounts.creator_payment_key = sampleWorld.bet.creator_payment_account ∧
    c4HonestAccounts.acceptor_payment_key =
      sampleWorld.acceptedRecord.acceptor_payment_account ∧
    c4HonestAccounts.accepted_bet_escrow_key =
      sampleWorld.acceptedRecord.accepted_bet_escrow_account ∧
    sampleWorld.bet.expiration_time ≤ c4HonestAccounts.now ∧
    sampleWorld.acceptedRecord.finalized = false ∧
    process_finalize_bet sampleWorld c4HonestAccounts = .error (.prog .InvalidAccounts) ∧
    c4WrongEscrowAccounts.accepted_bet_escrow_key ≠
      sampleWorld.acceptedRecord.accepted_bet_escrow_account ∧
    (process_finalize_bet sampleWorld c4WrongEscrowAccounts).isOk = true :=
  ⟨rfl, rfl, rfl, rfl, rfl, rfl, by decide, rfl, rfl, by decide, rfl⟩

/-- C5: a successful CancelBet sets the cancelled flag; on a cancelled
BetRecord no AcceptBet can ever succeed, and it fails with
`BetCancelled` as soon as the checks that precede the cancelled check
pass; and the cancelled flag is monotonic — no transition on an
initialized record resets it to false. -/
theorem c5_cancel_then_accept :
    (∀ (w : World) (a : CancelBetAccounts) (w' : World),
        process_cancel_bet w a = .ok w' → w'.bet.cancelled = true) ∧
    (∀ (w : World), w.bet.cancelled = true →
      ∀ (a : AcceptBetAccounts) (size : Nat),
        (∀ w'' : World, process_accept_bet w a size ≠ .ok w'') ∧
        (a.token_program_key = splTokenId →
          a.system_program_key = systemProgramId →
          a.acceptor_main_is_signer = true →
          a.accepted_bet_state_owner = a.program_id →
          a.accepted_bet_state_rent_exempt = true →
          w.bet.betting_market = a.betting_market_key →
          w.bet.bet_escrow_account = a.bet_escrow_key →
          process_accept_bet w a size = .error (.prog .BetCancelled))) ∧
    (∀ (w : World), w.bet.is_initialized = true → w.bet.cancelled = true →
      (∀ (a : CreateBetAccounts) (g : CreateBetArgs),
        (runCreate w a g).bet.cancelled = true) ∧
      (∀ (a : AcceptBetAccounts) (size : Nat),
        (runAccept w a size).bet.cancelled = true) ∧
      (∀ a : CancelBetAccounts, (runCancel w a).bet.cancelled = true) ∧
      (∀ a : FinalizeBetAccounts, (runFinalize w a).bet.cancelled = true)) := by
  refine ⟨?_, ?_, ?_⟩
  · intro w a w' h
    rw [cancel_ok_fields h]
  · intro w hc a size
    refine ⟨fun w'' => accept_cancelled_not_ok hc a size w'', ?_⟩
    intro h1 h2 h3 h4 h5 h6 h7
    exact accept_cancelled_err w a size hc h1 h2 h3 h4 h5 h6 h7
  · intro w hi hc
    refine ⟨?_, ?_, ?_, ?_⟩
    · intro a g
      unfold runCreate
      cases hres : process_create_bet w a g with
      | ok w'' => exact absurd hres (create_not_ok_of_initialized hi a g w'')
      | error e => exact hc
    · intro a size
      rw [(runAccept_bet_frame w a size).1]
      exact hc
    · intro a
      unfold runCancel
      cases hres : process_cancel_bet w a with
      | ok w'' => rw [cancel_ok_fields hres]
      | error e => exact hc
    · intro a
      unfold runFinalize
      cases hres : process_finalize_bet w a with
      | ok w'' =>
        obtain ⟨price, -, -, hsettle⟩ := finalize_ok_parts hres
        obtain ⟨hbet, -⟩ := finalize_settle_ok_fields hsettle
        rw [hbet]
        exact hc
      | error e => exact hc

/-- Witness for C5: cancelling the sample bet succeeds and marks it
cancelled, and the subsequent acceptance attempt with matching
accounts fails with `BetCancelled`; the cancelled flag survives a
further finalize attempt. -/
theorem c5_cancel_then_accept_witness :
    process_cancel_bet sampleWorld sampleCancelAccounts = .ok sampleCancelledWorld ∧
    sampleCancelledWorld.bet.cancelled = true ∧
    process_accept_bet sampleCancelledWorld sampleAcceptAccounts 400 =
      .error (.prog .BetCancelled) ∧
    (runFinalize sampleCancelledWorld sampleFinalizeAccounts).bet.cancelled = true := by
  have h1 := c5_cancel_then_accept.1 sampleWorld sampleCancelAccounts
    sampleCancelledWorld rfl
  have h2 := (c5_cancel_then_accept.2.1 sampleCancelledWorld h1 sampleAcceptAccounts
    400).2 rfl rfl rfl rfl rfl rfl rfl
  have h3 := ((c5_cancel_then_accept.2.2 sampleCancelledWorld rfl h1).2.2.2)
    sampleFinalizeAccounts
  exact ⟨rfl, h1, h2, h3⟩

/-- C6: every successful CreateBet writes a BetRecord whose
`start_price` is the oracle price sampled during that CreateBet, whose
`total_amount_accepted` is 0 and which is marked initialized; and
whenever the same input would otherwise succeed, odds below 100 make
CreateBet fail with `InvalidOdds`. -/
theorem c6_create_bet :
    (∀ (w : World) (a : CreateBetAccounts) (g : CreateBetArgs) (w' : World)
        (price : Int),
        a.oracle_price = some price →
        process_create_bet w a g = .ok w' →
        w'.bet.start_price = price ∧
        w'.bet.total_amount_accepted = 0 ∧
        w'.bet.is_initialized = true) ∧
    (∀ (w : World) (a : CreateBetAccounts) (g : CreateBetArgs) (w₀ : World),
        process_create_bet w a { g with odds := 100 } = .ok w₀ →
        ∀ odds₁ : Int, odds₁ < 100 →
          process_create_bet w a { g with odds := odds₁ } =
            .error (.prog .InvalidOdds)) := by
  constructor
  · intro w a g w' price hp h
    obtain ⟨price0, hp0, -, -, -, hw'⟩ := create_tail_ok_fields (create_ok_via_tail h)
    rw [hp] at hp0
    injection hp0 with hp0
    subst hp0
    subst hw'
    exact ⟨rfl, rfl, rfl⟩
  · intro w a g w₀ hok odds₁ hlow
    exact create_error_transfer hok
      (create_tail_low_odds (create_ok_via_tail hok) hlow) rfl

/-- Witness for C6: the sample creation stores `start_price = 90` (the
oracle sample), a zero running total and the initialized mark, and the
same input with odds 99 is rejected with `InvalidOdds`. -/
theorem c6_create_bet_witness :
    process_create_bet sampleCreateWorld sampleCreateAccounts sampleCreateArgs =
      .ok sampleCreatedWorld ∧
    sampleCreatedWorld.bet.start_price = 90 ∧
    sampleCreatedWorld.bet.total_amount_accepted = 0 ∧
    sampleCreatedWorld.bet.is_initialized = true ∧
    process_create_bet sampleCreateWorld sampleCreateAccounts
      { sampleCreateArgs with odds := 99 } = .error (.prog .InvalidOdds) := by
  have h1 := c6_create_bet.1 sampleCreateWorld sampleCreateAccounts sampleCreateArgs
    sampleCreatedWorld 90 rfl rfl
  have h2 := c6_create_bet.2 sampleCreateWorld sampleCreateAccounts sampleCreateArgs
    (runCreate sampleCreateWorld sampleCreateAccounts
      { sampleCreateArgs with odds := 100 }) (by rfl) 99 (by decide)
  exact ⟨rfl, h1.1, h1.2.1, h1.2.2, h2⟩

/-- The accept pipeline reports the division-by-zero fault only when
the stored variable-odds divisor is `Some 0`: every other failure path
carries a different error value. -/
theorem accept_divzero_source {w : World} {a : AcceptBetAccounts} {size : Nat}
    (h : process_accept_bet w a size = .error (.crashed .divByZero)) :
    w.bet.variable_odds = some 0 := by
  unfold process_accept_bet at h
  split_ifs at h
  all_goals try (injection h with h; injection h)
  cases hp : a.oracle_price with
  | none =>
    simp only [hp] at h
    injection h with h
    injection h with h
    injection h
  | some price =>
    simp only [hp] at h
    unfold accept_bet_priced at h
    split_ifs at h
    all_goals try (injection h with h; injection h)
    cases ho : acceptance_odds w.bet price with
    | error e =>
      simp only [ho] at h
      injection h with h
      subst h
      exact (acceptance_odds_error ho).1
    | ok bet_odds =>
      simp only [ho] at h
      split_ifs at h
      all_goals try (injection h with h; injection h)
      simp only [accept_bet_transfer] at h
      split_ifs at h
      all_goals injection h with h
      all_goals injection h

/-- C7: the amount AcceptBet pulls from the acceptor's payment account
is `requiredPayment(size, odds) = size * (odds - 100) / 100` with
truncating division (in the u64 arithmetic of the source, which agrees
with the exact product whenever it fits in 64 bits); it is 0 for every
size at odds 100, and 50 at size 100 and odds 150; and on every
successful acceptance exactly that amount leaves the acceptor's
payment account, at the locked-in odds. -/
theorem c7_required_payment :
    (∀ (size : Nat) (odds : Int), 100 ≤ odds →
        size * (odds - 100).toNat < 2 ^ 64 →
        requiredPayment size odds = size * (odds - 100).toNat / 100) ∧
    (∀ size : Nat, requiredPayment size 100 = 0) ∧
    requiredPayment 100 150 = 50 ∧
    (∀ (w : World) (a : AcceptBetAccounts) (size : Nat) (w' : World),
        process_accept_bet w a size = .ok w' →
        w'.acceptor_payment_bal + requiredPayment size w'.acceptedRecord.odds =
          w.acceptor_payment_bal) := by
  refine ⟨?_, ?_, by decide, ?_⟩
  · intro size odds h100 hlt
    rcases Nat.eq_zero_or_pos size with hs | hs
    · subst hs
      simp [requiredPayment]
    · have h1 : (odds - 100).toNat ≤ size * (odds - 100).toNat :=
        Nat.le_mul_of_pos_left _ hs
      have h2 : ((odds - 100) % (2 ^ 64 : Int)).toNat = (odds - 100).toNat := by
        omega
      unfold requiredPayment i64AsU64 u64Mod
      rw [h2, Nat.mod_eq_of_lt hlt]
  · intro size
    simp [requiredPayment, i64AsU64]
  · intro w a size w' h
    obtain ⟨price, bet_odds, -, -, -, -, htr⟩ := accept_ok_parts h
    obtain ⟨-, -, hrec, hle, hbal, -⟩ := accept_transfer_ok_fields htr
    rw [hrec, hbal]
    simp only []
    omega

/-- Witness for C7: `requiredPayment` is 50 at size 100 and odds 150,
0 at odds 100, and the sample acceptance of 400 units at odds 150
pulls exactly `requiredPayment 400 150 = 200` from the acceptor. -/
theorem c7_required_payment_witness :
    (100 ≤ (150 : Int) ∧ 100 * ((150 : Int) - 100).toNat < 2 ^ 64 ∧
      requiredPayment 100 150 = 100 * ((150 : Int) - 100).toNat / 100) ∧
    requiredPayment 12345 100 = 0 ∧
    process_accept_bet sampleWorld sampleAcceptAccounts 400 = .ok sampleAcceptedWorld ∧
    sampleAcceptedWorld.acceptor_payment_bal +
      requiredPayment 400 sampleAcceptedWorld.acceptedRecord.odds =
      sampleWorld.acceptor_payment_bal := by
  refine ⟨⟨by decide, by decide,
    c7_required_payment.1 100 150 (by decide) (by decide)⟩,
    c7_required_payment.2.1 12345, rfl,
    c7_required_payment.2.2.2 sampleWorld sampleAcceptAccounts 400
      sampleAcceptedWorld rfl⟩

/-- C8: the accept pipeline never writes the parent BetRecord — on
every path (success or failure) the stored bet, and in particular its
`total_amount_accepted` field, is exactly the input one; among the
remaining transitions only create and cancel mutate it (finalize also
leaves it untouched). -/
theorem c8_accept_bet_frame :
    (∀ (w : World) (a : AcceptBetAccounts) (size : Nat),
        (runAccept w a size).bet = w.bet ∧
        (runAccept w a size).bet.total_amount_accepted =
          w.bet.total_amount_accepted) ∧
    (∀ (w : World) (a : FinalizeBetAccounts), (runFinalize w a).bet = w.bet) := by
  constructor
  · intro w a size
    have hb := (runAccept_bet_frame w a size).1
    exact ⟨hb, by rw [hb]⟩
  · intro w a
    unfold runFinalize
    cases hres : process_finalize_bet w a with
    | ok w'' =>
      obtain ⟨price, -, -, hsettle⟩ := finalize_ok_parts hres
      exact (finalize_settle_ok_fields hsettle).1
    | error e => rfl

/-- C9 (counterexample): the declared constants do not all equal the
field-sum sizes: `MAX_BET_DATA_LENGTH` is 221 while the sum of the
`Bet` fields' fixed-width encodings is 276, and
`MAX_BETTING_MARKET_DATA_LEN` is 129 while the `BettingMarket` field
sum (with the optional field's presence byte) is 130. -/
theorem c9_counterexample :
    MAX_BET_DATA_LENGTH = 221 ∧ betComputedSize = 276 ∧
    MAX_BET_DATA_LENGTH ≠ betComputedSize ∧
    MAX_BETTING_MARKET_DATA_LEN = 129 ∧ bettingMarketComputedSize = 130 ∧
    MAX_BETTING_MARKET_DATA_LEN ≠ bettingMarketComputedSize := by decide

/-- C9 (amended): only the AcceptedBet constant equals the computed sum
of its (declared) fields; the Bet and BettingMarket constants are
strictly smaller than their computed sizes; and decode-time rejection
(modelled from the spec, the utility is outside src/) is against the
declared constant: storage is rejected exactly when it is smaller than
the declared constant, not the computed size. -/
theorem c9_data_lengths_amended :
    MAX_ACCEPTED_BET_DATA_LEN = acceptedBetComputedSize ∧
    MAX_BET_DATA_LENGTH < betComputedSize ∧
    MAX_BETTING_MARKET_DATA_LEN < bettingMarketComputedSize ∧
    (∀ storage_len : Nat,
      (storage_size_ok storage_len MAX_BET_DATA_LENGTH = false ↔
        storage_len < MAX_BET_DATA_LENGTH) ∧
      (storage_size_ok storage_len MAX_BETTING_MARKET_DATA_LEN = false ↔
        storage_len < MAX_BETTING_MARKET_DATA_LEN) ∧
      (storage_size_ok storage_len MAX_ACCEPTED_BET_DATA_LEN = false ↔
        storage_len < MAX_ACCEPTED_BET_DATA_LEN)) := by
  refine ⟨by decide, by decide, by decide, ?_⟩
  intro n
  refine ⟨?_, ?_, ?_⟩ <;> simp [storage_size_ok]

/-- C10: CreateBet accepts `variable_odds = Some 0` without any
validation (the sample creation succeeds and stores `Some 0`); from
that reachable state, AcceptBet hits the division by zero in the odds
computation; and the division-by-zero fault is impossible exactly under
the precondition that `variable_odds` is unset or nonzero. -/
theorem c10_variable_odds_zero :
    process_create_bet sampleCreateWorld sampleCreateAccounts c10CreateArgs =
      .ok c10CreatedWorld ∧
    c10CreatedWorld.bet.variable_odds = some 0 ∧
    process_accept_bet c10CreatedWorld sampleAcceptAccounts 400 =
      .error (.crashed .divByZero) ∧
    (∀ (w : World) (a : AcceptBetAccounts) (size : Nat),
        (w.bet.variable_odds = none ∨ ∃ v, w.bet.variable_odds = some v ∧ v ≠ 0) →
        process_accept_bet w a size ≠ .error (.crashed .divByZero)) := by
  refine ⟨rfl, rfl, rfl, ?_⟩
  intro w a size hpre h
  have hz := accept_divzero_source h
  rcases hpre with hnone | ⟨v, hv, hvne⟩
  · rw [hnone] at hz
    exact Option.noConfusion hz
  · rw [hv] at hz
    injection hz with hz
    exact hvne hz

/-- Witness for C10: on the sample world, whose bet has no variable
odds, acceptance cannot produce the division-by-zero fault. -/
theorem c10_variable_odds_zero_witness :
    sampleWorld.bet.variable_odds = none ∧
    process_accept_bet sampleWorld sampleAcceptAccounts 400 ≠
      .error (.crashed .divByZero) :=
  ⟨rfl, c10_variable_odds_zero.2.2.2 sampleWorld sampleAcceptAccounts 400
    (Or.inl rfl)⟩

end SolBets
